import Mathlib

/-!
Verification of the OBJ/MTL mesh-loading core of `src/RenderEngine.js`
(class `MeshLoader` and the helper functions `generateTangents` and
`parseLines`, plus the texture-loading loop of `LoadOBJAndMesh`).

The JavaScript is embedded shallowly:

* JS numbers that flow through the parsers are never operated on
  arithmetically (they are parsed from text and copied into arrays), so
  they are modelled as `JsNum`: either a rational value or `nan`
  (the result of `parseFloat`/`parseInt` on non-numeric text).
  Non-finite literals such as `"Infinity"` are outside the model; they
  would flow through the parser as inertly as any other value.
* Statements that throw `TypeError` at run time (spreading `undefined`,
  setting a property of `undefined`) are modelled by `Except JsErr`.
* JS strings are processed through their character lists (`String.data`)
  with structural-recursion helpers mirroring `trim`, `split`,
  `startsWith` and the regex `/(\w*)(?: )*(.*)/`, so that every
  definition evaluates inside the kernel.
-/

/-- Result of JS `parseFloat`: a finite rational value or `NaN`. -/
inductive JsNum where
  | nan : JsNum
  | num : ℚ → JsNum
deriving DecidableEq, Repr

/-- The one runtime error the embedded code can raise: a `TypeError`
(from spreading `undefined` or assigning a property of `undefined`). -/
inductive JsErr where
  | typeError : JsErr
deriving DecidableEq, Repr

deriving instance DecidableEq for Except

/-- Numeric value of a list of decimal digit characters. -/
def digitsVal (ds : List Char) : ℕ :=
  ds.foldl (fun a c => a * 10 + (c.toNat - 48)) 0

/-- JS `parseInt(str)` (radix unspecified, decimal case): optional sign,
then a run of decimal digits; any trailing text is ignored; `none`
models `NaN`. The tokens this parser feeds it carry no leading
whitespace and no `0x` prefix. -/
def parseIntJS (cs : List Char) : Option ℤ :=
  let sr : Bool × List Char :=
    match cs with
    | '-' :: t => (true, t)
    | '+' :: t => (false, t)
    | t => (false, t)
  let digits := sr.2.takeWhile Char.isDigit
  if digits = [] then none
  else some ((if sr.1 then -1 else 1) * (digitsVal digits : ℤ))

/-- Exponent part of a JS float literal: `[eE][+-]?digits`; a malformed
exponent is ignored (JS `parseFloat("1e")` is `1`). -/
def parseExpJS (t : List Char) : ℤ :=
  let sr : Bool × List Char :=
    match t with
    | '-' :: u => (true, u)
    | '+' :: u => (false, u)
    | u => (false, u)
  let ds := sr.2.takeWhile Char.isDigit
  if ds = [] then 0
  else (if sr.1 then -1 else 1) * (digitsVal ds : ℤ)

/-- JS `parseFloat(str)`: optional sign, decimal digits with an optional
fraction and exponent; trailing garbage ignored; `nan` when no digits
were consumed. -/
def parseFloatJS (cs : List Char) : JsNum :=
  let sr : Bool × List Char :=
    match cs with
    | '-' :: t => (true, t)
    | '+' :: t => (false, t)
    | t => (false, t)
  let intDs := sr.2.takeWhile Char.isDigit
  let rest1 := sr.2.dropWhile Char.isDigit
  let fr : List Char × List Char :=
    match rest1 with
    | '.' :: t => (t.takeWhile Char.isDigit, t.dropWhile Char.isDigit)
    | t => ([], t)
  if intDs = [] ∧ fr.1 = [] then .nan
  else
    let mant : ℚ := (digitsVal intDs : ℚ) + (digitsVal fr.1 : ℚ) / ((10 : ℚ) ^ fr.1.length)
    let e : ℤ :=
      match fr.2 with
      | 'e' :: t => parseExpJS t
      | 'E' :: t => parseExpJS t
      | _ => 0
    let v := mant * (10 : ℚ) ^ e
    .num (if sr.1 then -v else v)

/-- JS `parseInt` result reinjected as a stored number (for `illum`). -/
def jsNumOfInt (o : Option ℤ) : JsNum :=
  match o with
  | none => .nan
  | some n => .num n

/-- Whitespace recognised by JS `trim` and `\s` (ASCII part). -/
def isJsSpace (c : Char) : Bool :=
  c = ' ' || c = '\t' || c = '\n' || c = '\r' || c = '\x0b' || c = '\x0c'

/-- JS `String.prototype.trim`. -/
def jsTrim (cs : List Char) : List Char :=
  ((cs.dropWhile isJsSpace).reverse.dropWhile isJsSpace).reverse

/-- Split a character list at every character satisfying `p`, keeping
empty pieces (the behaviour of JS `split` on a single character). -/
def splitByPred (p : Char → Bool) : List Char → List (List Char)
  | [] => [[]]
  | c :: cs =>
    match splitByPred p cs with
    | [] => [[]]
    | cur :: rest => if p c then [] :: cur :: rest else (c :: cur) :: rest

/-- JS `text.split("\n")` (or `vert.split("/")`), as character lists. -/
def splitOnChar (c : Char) (cs : List Char) : List (List Char) :=
  splitByPred (fun d => d = c) cs

/-- JS `line.split(/\s+/)` on an already-trimmed line: whitespace runs
separate the fields, so empty pieces are discarded. -/
def fieldsByWs (cs : List Char) : List (List Char) :=
  (splitByPred isJsSpace cs).filter (fun f => f ≠ [])

/-- A `\w` word character, as in the regex `/(\w*)(?: )*(.*)/`. -/
def isWordChar (c : Char) : Bool :=
  c.isAlphanum || c = '_'

/-- The regex `/(\w*)(?: )*(.*)/` of `parseLines`: capture 1 is the
leading run of word characters, capture 2 the remainder after the
following run of plain spaces. Every part can match the empty string,
so `exec` succeeds on every input; the `Option` mirrors the JS
`keywordRE.exec(line)` result checked by `if (!m)`. -/
def execKeywordRE (cs : List Char) : Option (List Char × List Char) :=
  some (cs.takeWhile isWordChar, (cs.dropWhile isWordChar).dropWhile (fun c => c = ' '))

/-- Keyword that `parseLines` extracts from a raw line (after `trim`). -/
def lineKeyword (line : String) : String :=
  ⟨(jsTrim line.data).takeWhile isWordChar⟩

/-! ## Geometry parser (`MeshLoader.ParseOBJ`) -/

/-- One entry of the `geometries` array: the active object name, group
list and material captured at creation time, plus the four expanded
(non-indexed) vertex-data arrays that `addVertex` pushes into. -/
structure Geometry where
  object : String
  groups : List String
  material : String
  position : List JsNum
  texcoord : List JsNum
  normal : List JsNum
  color : List JsNum
deriving DecidableEq, Repr

/-- Parser state of one `ParseOBJ` call. The JS keeps the open geometry
both inside `geometries` and in the `geometry` variable; here the closed
geometries live in `doneGeoms` and the open one (always the most
recently created) in `current`, so the JS `geometries` array is
`doneGeoms ++ current.toList` (`geomList`). -/
structure ObjState where
  objPositions : List (List JsNum)
  objTexcoords : List (List JsNum)
  objNormals : List (List JsNum)
  objColors : List (List JsNum)
  doneGeoms : List Geometry
  current : Option Geometry
  groups : List String
  material : String
  object : String
  materialLibs : List String
  log : List (String × ℕ)
deriving DecidableEq, Repr

/-- The `geometries` array as the JS code sees it. -/
def geomList (s : ObjState) : List Geometry :=
  s.doneGeoms ++ s.current.toList

/-- Initial `ParseOBJ` state: each pool pre-filled with the index-0
sentinel entry, default object/group/material names. -/
def objInit : ObjState where
  objPositions := [[.num 0, .num 0, .num 0]]
  objTexcoords := [[.num 0, .num 0]]
  objNormals := [[.num 0, .num 0, .num 0]]
  objColors := [[.num 0, .num 0, .num 0]]
  doneGeoms := []
  current := none
  groups := ["default"]
  material := "default"
  object := "default"
  materialLibs := []
  log := []

/-- JS `newGeometry()`: drop the `geometry` variable (close the current
geometry) only when it exists and already holds position data. -/
def newGeometry (s : ObjState) : ObjState :=
  match s.current with
  | some g =>
    if g.position ≠ [] then
      { s with doneGeoms := s.doneGeoms ++ [g], current := none }
    else s
  | none => s

/-- JS `setGeometry()`: when no geometry is open, create one from the
active object/groups/material with empty data arrays and push it onto
the geometry list. -/
def setGeometry (s : ObjState) : ObjState :=
  match s.current with
  | some _ => s
  | none =>
    { s with current := some ⟨s.object, s.groups, s.material, [], [], [], []⟩ }

/-- `objVertexData[i]`: the attribute pool addressed by sub-index `i`
of a face-corner token (0 = positions, 1 = texcoords, 2 = normals,
3 = colors). Only called with `i < 4`. -/
def poolAt (s : ObjState) (i : ℕ) : List (List JsNum) :=
  match i with
  | 0 => s.objPositions
  | 1 => s.objTexcoords
  | 2 => s.objNormals
  | _ => s.objColors

/-- The index arithmetic of `addVertex`: `objIndex + (objIndex >= 0 ? 0
: pool.length)`, so negative indices are relative to the pool length at
the moment the face is parsed. -/
def resolveIndex (objIndex : ℤ) (len : ℕ) : ℤ :=
  if 0 ≤ objIndex then objIndex else objIndex + len

/-- JS array read `arr[i]` with a possibly negative computed index:
out-of-range reads give `undefined` (`none`). -/
def listGetInt (l : List (List JsNum)) (i : ℤ) : Option (List JsNum) :=
  if i < 0 then none else l[i.toNat]?

/-- `objVertexData[i][index]` as `addVertex` performs it: resolve the
(possibly negative) index against the pool length, then read. -/
def lookupRef (pool : List (List JsNum)) (objIndex : ℤ) : Option (List JsNum) :=
  listGetInt pool (resolveIndex objIndex pool.length)

/-- Append values to data array `i` of a geometry
(`webglVertexData[i].push(...)` with `webglVertexData` aliasing the
current geometry's arrays). Only called with `i < 4`. -/
def pushField (g : Geometry) (i : ℕ) (vals : List JsNum) : Geometry :=
  match i with
  | 0 => { g with position := g.position ++ vals }
  | 1 => { g with texcoord := g.texcoord ++ vals }
  | 2 => { g with normal := g.normal ++ vals }
  | _ => { g with color := g.color ++ vals }

/-- One component (sub-index `i`) of a face-corner token inside
`addVertex`. Empty components are skipped; a component at position ≥ 4
makes `objVertexData[i]` `undefined` (TypeError); a non-numeric index
is `NaN`, so `objVertexData[i][NaN]` is `undefined` and spreading it
throws; an out-of-range resolved index throws the same way; when vertex
colors are in use (`objColors.length > 1`), the color entry at the same
resolved index is also copied, throwing when it does not exist. -/
def addVertexComp (s : ObjState) (i : ℕ) (comp : List Char) : Except JsErr ObjState :=
  if comp = [] then .ok s
  else if 4 ≤ i then .error .typeError
  else
    match parseIntJS comp with
    | none => .error .typeError
    | some objIndex =>
      -- the JS computes `index` once from pool `i` and reuses it for
      -- the color pool below
      match listGetInt (poolAt s i) (resolveIndex objIndex (poolAt s i).length) with
      | none => .error .typeError
      | some vals =>
        match s.current with
        | none => .error .typeError
        | some g =>
          if i = 0 ∧ 1 < s.objColors.length then
            match listGetInt s.objColors (resolveIndex objIndex (poolAt s i).length) with
            | none => .error .typeError
            | some cvals =>
              .ok { s with current := some (pushField (pushField g i vals) 3 cvals) }
          else .ok { s with current := some (pushField g i vals) }

/-- JS `addVertex(vert)`: split the token on `/` and process each
component with its position. -/
def addVertex (s : ObjState) (vert : List Char) : Except JsErr ObjState :=
  (splitOnChar '/' vert).enum.foldlM (fun st p => addVertexComp st p.1 p.2) s

/-- Handler for `v` lines: more than three arguments means the extra
ones are a non-standard per-vertex color. -/
def vHandler (s : ObjState) (parts : List (List Char)) : ObjState :=
  if 3 < parts.length then
    { s with
      objPositions := s.objPositions ++ [(parts.take 3).map parseFloatJS],
      objColors := s.objColors ++ [(parts.drop 3).map parseFloatJS] }
  else
    { s with objPositions := s.objPositions ++ [parts.map parseFloatJS] }

/-- Handler for `f` lines: ensure a geometry is open, then fan-
triangulate: for each `tri < parts.length - 2` add the corners
`parts[0]`, `parts[tri+1]`, `parts[tri+2]`. -/
def fHandler (s : ObjState) (parts : List (List Char)) : Except JsErr ObjState :=
  (List.range (parts.length - 2)).foldlM
    (fun st tri => do
      let st1 ← addVertex st (parts.getD 0 [])
      let st2 ← addVertex st1 (parts.getD (tri + 1) [])
      addVertex st2 (parts.getD (tri + 2) []))
    (setGeometry s)

/-- Modelled from the spec: the fixed-pivot fan scheme, "triangle `k` =
(ref[0], ref[k+1], ref[k+2]) for k in 0..N−3", as the list of corner
triples a face line should produce. -/
def fanRefs (parts : List (List Char)) : List (List Char × List Char × List Char) :=
  (List.range (parts.length - 2)).map
    (fun k => (parts.getD 0 [], parts.getD (k + 1) [], parts.getD (k + 2) []))

/-- Add the three corners of one triangle. -/
def addRefTriple (st : ObjState) (r : List Char × List Char × List Char) :
    Except JsErr ObjState := do
  let st1 ← addVertex st r.1
  let st2 ← addVertex st1 r.2.1
  addVertex st2 r.2.2

/-- The face handler as the spec describes it: open a geometry, then
process exactly the corner triples of the fan scheme. -/
def fanFold (s : ObjState) (parts : List (List Char)) : Except JsErr ObjState :=
  (fanRefs parts).foldlM addRefTriple (setGeometry s)

/-- The `keywords` tables are plain object literals, so the property
read `keywords[keyword]` in `parseLines` traverses the prototype chain:
a keyword naming an `Object.prototype` member finds a truthy inherited
value, `if (!handler)` does not fire, and the member is invoked as
`handler(parts, unparsedArgs)` with `this` being `undefined` (the file
is an ES module, hence strict mode). `toString` then returns
`"[object Undefined]"` and `constructor` (the `Object` function) just
builds an object — both results are discarded, the line has no
effect. -/
def protoSilentKeywords : List String := ["constructor", "toString"]

/-- The remaining `Object.prototype` member names: invoked with `this`
being `undefined`, these all throw a TypeError (`ToObject(undefined)`
inside `hasOwnProperty`, `isPrototypeOf`, `propertyIsEnumerable`,
`toLocaleString`, `valueOf` and the four legacy accessor-definition
methods; `__proto__` reads as the non-callable `Object.prototype`
itself, so the call throws). The throw escapes the parse call. -/
def protoThrowKeywords : List String :=
  ["hasOwnProperty", "isPrototypeOf", "propertyIsEnumerable", "toLocaleString",
   "valueOf", "__proto__", "__defineGetter__", "__defineSetter__",
   "__lookupGetter__", "__lookupSetter__"]

/-- The `keywords` dispatch table of `ParseOBJ`, applied to the
keyword, raw argument remainder and whitespace-split argument fields of
one line. After the table's own keys, the two inherited-member branches
model the prototype-chain lookup described at `protoSilentKeywords`;
only a keyword found nowhere reaches the `console.warn` branch. -/
def objDispatch (s : ObjState) (lineNo : ℕ) (keyword unparsedArgs : String)
    (parts : List (List Char)) : Except JsErr ObjState :=
  if keyword = "v" then .ok (vHandler s parts)
  else if keyword = "vn" then
    .ok { s with objNormals := s.objNormals ++ [parts.map parseFloatJS] }
  else if keyword = "vt" then
    .ok { s with objTexcoords := s.objTexcoords ++ [parts.map parseFloatJS] }
  else if keyword = "f" then fHandler s parts
  else if keyword = "s" then .ok s
  else if keyword = "mtllib" then
    .ok { s with materialLibs := s.materialLibs ++ [unparsedArgs] }
  else if keyword = "usemtl" then
    .ok (newGeometry { s with material := unparsedArgs })
  else if keyword = "g" then
    .ok (newGeometry { s with groups := parts.map (fun cs => (⟨cs⟩ : String)) })
  else if keyword = "o" then
    .ok (newGeometry { s with object := unparsedArgs })
  else if keyword ∈ protoSilentKeywords then .ok s
  else if keyword ∈ protoThrowKeywords then .error .typeError
  else .ok { s with log := s.log ++ [(keyword, lineNo + 1)] }

/-- Every keyword the OBJ-table property read finds: the table's own
keys plus the inherited `Object.prototype` member names. The JS
`if (!handler)` test fails exactly for these, so only keywords outside
this list are logged as unhandled. -/
def objFoundKeywords : List String :=
  ["v", "vn", "vt", "f", "s", "mtllib", "usemtl", "g", "o"]
    ++ protoSilentKeywords ++ protoThrowKeywords

/-- Keyword dispatch of `ParseOBJ` applied to the regex match of one
non-empty, non-comment line (`none` is the `if (!m) continue` branch,
unreachable because `execKeywordRE` always matches). -/
def objHandle (s : ObjState) (line : List Char) (lineNo : ℕ)
    (m : Option (List Char × List Char)) : Except JsErr ObjState :=
  match m with
  | none => .ok s
  | some kr => objDispatch s lineNo ⟨kr.1⟩ ⟨kr.2⟩ ((fieldsByWs line).drop 1)

/-- One iteration of the `parseLines` loop for `ParseOBJ`: trim the raw
line, skip empty lines and comments, run the keyword regex and
dispatch. -/
def objStep (s : ObjState) (rawLine : String) (lineNo : ℕ) : Except JsErr ObjState :=
  let line := jsTrim rawLine.data
  if line = [] then .ok s
  else if line.headD ' ' = '#' then .ok s
  else objHandle s line lineNo (execKeywordRE line)

/-- The `parseLines` loop from line number `n` onward. -/
def runLinesFrom : ObjState → ℕ → List String → Except JsErr ObjState
  | s, _, [] => .ok s
  | s, n, line :: rest =>
    match objStep s line n with
    | .error e => .error e
    | .ok s' => runLinesFrom s' (n + 1) rest

/-- The whole `parseLines(text, keywords)` call of `ParseOBJ`. -/
def runLines (s : ObjState) (lines : List String) : Except JsErr ObjState :=
  runLinesFrom s 0 lines

/-- A geometry after the `ParseOBJ` post-pass: attribute arrays that
ended up empty are dropped from the record (absence, not `[]`). -/
structure GeometryOut where
  object : String
  groups : List String
  material : String
  position : Option (List JsNum)
  texcoord : Option (List JsNum)
  normal : Option (List JsNum)
  color : Option (List JsNum)
deriving DecidableEq, Repr

/-- Drop an attribute array unless it has entries. -/
def keepNonEmpty (l : List JsNum) : Option (List JsNum) :=
  if l = [] then none else some l

/-- The post-pass `geometry.data = Object.fromEntries(... filter
length > 0)` applied to one geometry. -/
def finalizeGeometry (g : Geometry) : GeometryOut :=
  ⟨g.object, g.groups, g.material, keepNonEmpty g.position,
    keepNonEmpty g.texcoord, keepNonEmpty g.normal, keepNonEmpty g.color⟩

/-- Return value of `ParseOBJ`. -/
structure ObjResult where
  geometries : List GeometryOut
  materialLibs : List String
deriving DecidableEq, Repr

/-- JS `text.split("\n")`. -/
def splitJsLines (text : String) : List String :=
  (splitOnChar '\n' text.data).map (fun cs => (⟨cs⟩ : String))

/-- `MeshLoader.ParseOBJ(text)`: run every line through the keyword
dispatch, then apply the empty-array post-pass to each geometry. -/
def ParseOBJ (text : String) : Except JsErr ObjResult := do
  let s ← runLines objInit (splitJsLines text)
  .ok ⟨(geomList s).map finalizeGeometry, s.materialLibs⟩

/-! ## Material parser (`MeshLoader.ParseMTL`) -/

/-- One material record; every field is absent until its keyword is
seen. `illum` stores the `parseInt` result as a JS number. -/
structure MtlMat where
  shininess : Option JsNum := none
  ambient : Option (List JsNum) := none
  diffuse : Option (List JsNum) := none
  specular : Option (List JsNum) := none
  emissive : Option (List JsNum) := none
  diffuseMap : Option String := none
  specularMap : Option String := none
  normalMap : Option String := none
  opticalDensity : Option JsNum := none
  opacity : Option JsNum := none
  illum : Option JsNum := none
deriving DecidableEq, Repr

/-- State of one `ParseMTL` call: the `materials` object (an assoc list
in key-insertion order), the name of the material currently open (the
JS `material` variable aliases `materials[name]`), and the warning
log. -/
structure MtlState where
  materials : List (String × MtlMat)
  current : Option String
  log : List (String × ℕ)
deriving DecidableEq, Repr

/-- Initial `ParseMTL` state. -/
def mtlInit : MtlState := ⟨[], none, []⟩

/-- JS object assignment `materials[name] = material`: overwrite in
place if the key exists (keeping its position), else append. -/
def upsertMat : List (String × MtlMat) → String → MtlMat → List (String × MtlMat)
  | [], k, v => [(k, v)]
  | (k', v') :: t, k, v =>
    if k' = k then (k, v) :: t else (k', v') :: upsertMat t k v

/-- Mutate the material object stored under a key (the JS handlers
write through the `material` alias). -/
def modifyMat : List (String × MtlMat) → String → (MtlMat → MtlMat) → List (String × MtlMat)
  | [], _, _ => []
  | (k', v') :: t, k, f =>
    if k' = k then (k, f v') :: t else (k', v') :: modifyMat t k f

/-- A handler body of the form `material.field = ...`: when no
`newmtl` has run yet, `material` is `undefined` and the assignment
throws a TypeError. -/
def setMatField (s : MtlState) (f : MtlMat → MtlMat) : Except JsErr MtlState :=
  match s.current with
  | none => .error .typeError
  | some name => .ok { s with materials := modifyMat s.materials name f }

/-- The `keywords` dispatch table of `ParseMTL`. The two inherited-
member branches after the table's own keys model the prototype-chain
lookup exactly as in `objDispatch`. -/
def mtlDispatch (s : MtlState) (lineNo : ℕ) (keyword unparsedArgs : String)
    (parts : List (List Char)) : Except JsErr MtlState :=
  if keyword = "newmtl" then
      .ok { s with current := some unparsedArgs,
                   materials := upsertMat s.materials unparsedArgs {} }
    else if keyword = "Ns" then
      setMatField s (fun mt => { mt with shininess := some (parseFloatJS (parts.getD 0 [])) })
    else if keyword = "Ka" then
      setMatField s (fun mt => { mt with ambient := some (parts.map parseFloatJS) })
    else if keyword = "Kd" then
      setMatField s (fun mt => { mt with diffuse := some (parts.map parseFloatJS) })
    else if keyword = "Ks" then
      setMatField s (fun mt => { mt with specular := some (parts.map parseFloatJS) })
    else if keyword = "Ke" then
      setMatField s (fun mt => { mt with emissive := some (parts.map parseFloatJS) })
    else if keyword = "map_Kd" then
      setMatField s (fun mt => { mt with diffuseMap := some unparsedArgs })
    else if keyword = "map_Ns" then
      setMatField s (fun mt => { mt with specularMap := some unparsedArgs })
    else if keyword = "map_Bump" then
      setMatField s (fun mt => { mt with normalMap := some unparsedArgs })
    else if keyword = "Ni" then
      setMatField s (fun mt => { mt with opticalDensity := some (parseFloatJS (parts.getD 0 [])) })
    else if keyword = "d" then
      setMatField s (fun mt => { mt with opacity := some (parseFloatJS (parts.getD 0 [])) })
    else if keyword = "illum" then
      setMatField s (fun mt => { mt with illum := some (jsNumOfInt (parseIntJS (parts.getD 0 []))) })
    else if keyword ∈ protoSilentKeywords then .ok s
    else if keyword ∈ protoThrowKeywords then .error .typeError
    else .ok { s with log := s.log ++ [(keyword, lineNo + 1)] }

/-- Every keyword the MTL-table property read finds (own keys plus the
inherited `Object.prototype` member names), mirroring
`objFoundKeywords`. -/
def mtlFoundKeywords : List String :=
  ["newmtl", "Ns", "Ka", "Kd", "Ks", "Ke", "map_Kd", "map_Ns", "map_Bump",
    "Ni", "d", "illum"] ++ protoSilentKeywords ++ protoThrowKeywords

/-- Keyword dispatch of `ParseMTL` applied to the regex match of one
non-empty, non-comment line. -/
def mtlHandle (s : MtlState) (line : List Char) (lineNo : ℕ)
    (m : Option (List Char × List Char)) : Except JsErr MtlState :=
  match m with
  | none => .ok s
  | some kr => mtlDispatch s lineNo ⟨kr.1⟩ ⟨kr.2⟩ ((fieldsByWs line).drop 1)

/-- One iteration of the `parseLines` loop for `ParseMTL`. -/
def mtlStep (s : MtlState) (rawLine : String) (lineNo : ℕ) : Except JsErr MtlState :=
  let line := jsTrim rawLine.data
  if line = [] then .ok s
  else if line.headD ' ' = '#' then .ok s
  else mtlHandle s line lineNo (execKeywordRE line)

/-- The `parseLines` loop of `ParseMTL` from line number `n` onward. -/
def runMtlLinesFrom : MtlState → ℕ → List String → Except JsErr MtlState
  | s, _, [] => .ok s
  | s, n, line :: rest =>
    match mtlStep s line n with
    | .error e => .error e
    | .ok s' => runMtlLinesFrom s' (n + 1) rest

/-- `MeshLoader.ParseMTL(text)`: returns the materials mapping. -/
def ParseMTL (text : String) : Except JsErr (List (String × MtlMat)) := do
  let s ← runMtlLinesFrom mtlInit 0 (splitJsLines text)
  .ok s.materials

/-! ## Tangent synthesizer (`generateTangents`)

`generateTangents` is called without `indices`, so the unindexed
iterator yields `3*i, 3*i+1, 3*i+2` for face `i`. JS numbers are
modelled by exact rationals; `f = 1.0 / det` is non-finite exactly when
`det = 0` (`±0` gives `±Infinity`), so `Number.isFinite(f)` becomes
`det ≠ 0`. `m4.normalize` lives in the external webgl utility library,
not in this repository, so it is a parameter; `m4.subtractVectors` and
`m4.scaleVector` are componentwise. The JS loop bound `i < numFaces`
with `numFaces = position.length / 3 / 3` (real division) runs
`⌈position.length / 9⌉` iterations; out-of-range `slice` reads, which
only occur when the stream is not a whole number of triangles, are
modelled by `getD _ 0`. -/

/-- Components `n`, `n+1`, `n+2` of a flat array as a 3-vector. -/
def vec3At (l : List ℚ) (n : ℕ) : ℚ × ℚ × ℚ :=
  (l.getD n 0, l.getD (n + 1) 0, l.getD (n + 2) 0)

/-- Components `n`, `n+1` of a flat array as a 2-vector. -/
def vec2At (l : List ℚ) (n : ℕ) : ℚ × ℚ :=
  (l.getD n 0, l.getD (n + 1) 0)

/-- `m4.subtractVectors` on 3-vectors. -/
def subV3 (a b : ℚ × ℚ × ℚ) : ℚ × ℚ × ℚ :=
  (a.1 - b.1, a.2.1 - b.2.1, a.2.2 - b.2.2)

/-- `m4.scaleVector` on 3-vectors. -/
def scaleV3 (v : ℚ × ℚ × ℚ) (k : ℚ) : ℚ × ℚ × ℚ :=
  (v.1 * k, v.2.1 * k, v.2.2 * k)

/-- The UV-edge determinant of face `i`:
`duv12[0]*duv13[1] - duv13[0]*duv12[1]`. -/
def faceDet (texcoord : List ℚ) (i : ℕ) : ℚ :=
  let uv1 := vec2At texcoord (6 * i)
  let uv2 := vec2At texcoord (6 * i + 2)
  let uv3 := vec2At texcoord (6 * i + 4)
  let duv12 := (uv2.1 - uv1.1, uv2.2 - uv1.2)
  let duv13 := (uv3.1 - uv1.1, uv3.2 - uv1.2)
  duv12.1 * duv13.2 - duv13.1 * duv12.2

/-- The vector handed to `m4.normalize` when `f` is finite:
`f * (dp12 * duv13[1] - dp13 * duv12[1])`. -/
def faceRaw (position texcoord : List ℚ) (i : ℕ) : ℚ × ℚ × ℚ :=
  let p1 := vec3At position (9 * i)
  let p2 := vec3At position (9 * i + 3)
  let p3 := vec3At position (9 * i + 6)
  let uv1 := vec2At texcoord (6 * i)
  let uv2 := vec2At texcoord (6 * i + 2)
  let uv3 := vec2At texcoord (6 * i + 4)
  let dp12 := subV3 p2 p1
  let dp13 := subV3 p3 p1
  let duv12 := (uv2.1 - uv1.1, uv2.2 - uv1.2)
  let duv13 := (uv3.1 - uv1.1, uv3.2 - uv1.2)
  scaleV3 (subV3 (scaleV3 dp12 duv13.2) (scaleV3 dp13 duv12.2)) (1 / faceDet texcoord i)

/-- Tangent of face `i`: the `(1,0,0)` fallback when `f` is
non-finite, otherwise the normalized scaled edge combination. -/
def faceTangent (normalize : ℚ × ℚ × ℚ → ℚ × ℚ × ℚ)
    (position texcoord : List ℚ) (i : ℕ) : ℚ × ℚ × ℚ :=
  if faceDet texcoord i = 0 then (1, 0, 0)
  else normalize (faceRaw position texcoord i)

/-- Number of iterations of the `generateTangents` face loop. -/
def numFacesOf (position : List ℚ) : ℕ :=
  (position.length + 8) / 9

/-- The nine floats `tangents.push(...tangent, ...tangent, ...tangent)`
appends for one face. -/
def faceTangentList (normalize : ℚ × ℚ × ℚ → ℚ × ℚ × ℚ)
    (position texcoord : List ℚ) (i : ℕ) : List ℚ :=
  let t := faceTangent normalize position texcoord i
  [t.1, t.2.1, t.2.2, t.1, t.2.1, t.2.2, t.1, t.2.1, t.2.2]

/-- `generateTangents(position, texcoord)`: per face, push the face
tangent once per corner (three times). -/
def generateTangents (normalize : ℚ × ℚ × ℚ → ℚ × ℚ × ℚ)
    (position texcoord : List ℚ) : List ℚ :=
  (List.range (numFacesOf position)).foldl
    (fun tangents i => tangents ++ faceTangentList normalize position texcoord i)
    []

/-! ## Texture cache (`LoadOBJAndMesh`, texture-loading loop)

The loop `for material of materials` / `entries.filter(endsWith "Map")`
requests one texture per map entry: a hit in the `textures` object
reuses the stored handle (WebGL texture handles are objects, hence
always truthy, so `if (!texture)` is exactly a key miss), a miss calls
`createTexture` and stores the fresh handle under the filename.
Handles are opaque; they are modelled as naturals, `createTexture`
invocations are recorded by filename. -/

/-- State of the `textures` object during the loading loop, plus the
trace of `createTexture` invocations. -/
structure TexState where
  cache : List (String × ℕ)
  createCalls : List String
  nextHandle : ℕ
deriving DecidableEq, Repr

/-- The `textures` object as initialized in `LoadOBJAndMesh`, holding
the two built-in 1×1 placeholder handles. -/
def texInit : TexState :=
  ⟨[("defaultWhite", 0), ("defaultNormal", 1)], [], 2⟩

/-- JS property read `textures[filename]`. -/
def lookupTex : List (String × ℕ) → String → Option ℕ
  | [], _ => none
  | (k, v) :: t, fn => if k = fn then some v else lookupTex t fn

/-- One map entry: `let texture = textures[filename]; if (!texture)
{ texture = createTexture(...); textures[filename] = texture; }`. -/
def requestTexture (st : TexState) (filename : String) : TexState × ℕ :=
  match lookupTex st.cache filename with
  | some h => (st, h)
  | none =>
    (⟨st.cache ++ [(filename, st.nextHandle)],
      st.createCalls ++ [filename], st.nextHandle + 1⟩, st.nextHandle)

/-- Process one `*Map` entry, recording which handle the material
field receives for its filename. -/
def texEntryStep (acc : TexState × List (String × ℕ)) (e : String × String) :
    TexState × List (String × ℕ) :=
  let r := requestTexture acc.1 e.2
  (r.1, acc.2 ++ [(e.2, r.2)])

/-- The whole texture-loading loop over all materials; each material is
given as its list of `(key, filename)` map entries. Returns the final
`textures` state and the flat trace of `(filename, handle)`
assignments made to material fields. -/
def loadAllTextures (mats : List (List (String × String))) :
    TexState × List (String × ℕ) :=
  mats.foldl (fun acc entries => entries.foldl texEntryStep acc) (texInit, [])

/-- Invariant of the texture-loading loop: no filename was created
twice, every created filename is cached, and every handle assigned so
far is the cached handle of its filename. -/
def TexInv (acc : TexState × List (String × ℕ)) : Prop :=
  acc.1.createCalls.Nodup
  ∧ (∀ fn ∈ acc.1.createCalls, (lookupTex acc.1.cache fn).isSome = true)
  ∧ (∀ p ∈ acc.2, lookupTex acc.1.cache p.1 = some p.2)

/-! ## Extension order on emitted geometries

Once a face line has copied pool values into a geometry's data arrays,
later lines can only append: to the same (still open) geometry's
arrays, or new geometries after it. `GeomLE`/`GeomsLE` capture this
"already emitted data is never modified" order, and every parser step
is monotone for it. -/

/-- A geometry record extends another: same identity fields, and each
data array extends the old one on the left. -/
@[reducible] def GeomLE (g g' : Geometry) : Prop :=
  g.object = g'.object ∧ g.groups = g'.groups ∧ g.material = g'.material ∧
  g.position <+: g'.position ∧ g.texcoord <+: g'.texcoord ∧
  g.normal <+: g'.normal ∧ g.color <+: g'.color

/-- A geometry list extends another pointwise. -/
@[reducible] def GeomsLE (l l' : List Geometry) : Prop :=
  ∀ (i : ℕ) (g : Geometry), l[i]? = some g → ∃ g', l'[i]? = some g' ∧ GeomLE g g'

theorem geomLE_rfl (g : Geometry) : GeomLE g g :=
  ⟨rfl, rfl, rfl, List.prefix_rfl, List.prefix_rfl, List.prefix_rfl, List.prefix_rfl⟩

theorem geomLE_trans {a b c : Geometry} (h1 : GeomLE a b) (h2 : GeomLE b c) : GeomLE a c := by
  obtain ⟨o1, g1, m1, p1, t1, n1, c1⟩ := h1
  obtain ⟨o2, g2, m2, p2, t2, n2, c2⟩ := h2
  exact ⟨o1.trans o2, g1.trans g2, m1.trans m2, p1.trans p2, t1.trans t2,
    n1.trans n2, c1.trans c2⟩

theorem geomsLE_rfl (l : List Geometry) : GeomsLE l l :=
  fun _ g h => ⟨g, h, geomLE_rfl g⟩

theorem geomsLE_trans {a b c : List Geometry} (h1 : GeomsLE a b) (h2 : GeomsLE b c) :
    GeomsLE a c := by
  intro i g h
  obtain ⟨g1, hg1, hle1⟩ := h1 i g h
  obtain ⟨g2, hg2, hle2⟩ := h2 i g1 hg1
  exact ⟨g2, hg2, geomLE_trans hle1 hle2⟩

theorem geomsLE_append (l t : List Geometry) : GeomsLE l (l ++ t) := by
  intro i g h
  have hi : i < l.length := by
    by_contra hi
    simp [List.getElem?_eq_none (Nat.le_of_not_lt hi)] at h
  exact ⟨g, by rw [List.getElem?_append_left hi]; exact h, geomLE_rfl g⟩

theorem geomsLE_concat {l : List Geometry} {g g' : Geometry} (h : GeomLE g g') :
    GeomsLE (l ++ [g]) (l ++ [g']) := by
  intro i x hx
  rcases Nat.lt_trichotomy i l.length with hi | hi | hi
  · rw [List.getElem?_append_left hi] at hx
    exact ⟨x, by rw [List.getElem?_append_left hi]; exact hx, geomLE_rfl x⟩
  · subst hi
    rw [List.getElem?_concat_length] at hx
    cases hx
    exact ⟨g', List.getElem?_concat_length l g', h⟩
  · exfalso
    have hlen : (l ++ [g]).length ≤ i := by simp; omega
    simp [List.getElem?_eq_none hlen] at hx

/-- Helper to take a successful `Except` bind apart. -/
theorem except_bind_ok {α β : Type} {x : Except JsErr α} {g : α → Except JsErr β} {b : β}
    (h : x >>= g = .ok b) : ∃ a, x = .ok a ∧ g a = .ok b := by
  cases x with
  | error e => exact Except.noConfusion (h : Except.error e = Except.ok b)
  | ok a => exact ⟨a, rfl, h⟩

theorem geomList_newGeometry (s : ObjState) : geomList (newGeometry s) = geomList s := by
  unfold newGeometry
  cases hc : s.current with
  | none => rfl
  | some g =>
    by_cases hg : g.position = []
    · simp [hg]
    · simp [hg, geomList, hc]

theorem geomsLE_setGeometry (s : ObjState) : GeomsLE (geomList s) (geomList (setGeometry s)) := by
  unfold setGeometry
  cases hc : s.current with
  | some g => exact geomsLE_rfl _
  | none =>
    have h2 : GeomsLE (geomList s)
        (geomList s ++ [⟨s.object, s.groups, s.material, [], [], [], []⟩]) :=
      geomsLE_append _ _
    have h3 : geomList s ++ [⟨s.object, s.groups, s.material, [], [], [], []⟩]
        = geomList { s with current := some ⟨s.object, s.groups, s.material, [], [], [], []⟩ } := by
      simp [geomList, hc]
    rw [h3] at h2
    exact h2

theorem pushField_geomLE (g : Geometry) (i : ℕ) (vals : List JsNum) :
    GeomLE g (pushField g i vals) := by
  match i with
  | 0 => exact ⟨rfl, rfl, rfl, List.prefix_append _ _, List.prefix_rfl,
      List.prefix_rfl, List.prefix_rfl⟩
  | 1 => exact ⟨rfl, rfl, rfl, List.prefix_rfl, List.prefix_append _ _,
      List.prefix_rfl, List.prefix_rfl⟩
  | 2 => exact ⟨rfl, rfl, rfl, List.prefix_rfl, List.prefix_rfl,
      List.prefix_append _ _, List.prefix_rfl⟩
  | (n + 3) => exact ⟨rfl, rfl, rfl, List.prefix_rfl, List.prefix_rfl,
      List.prefix_rfl, List.prefix_append _ _⟩

theorem addVertexComp_geomsLE {s : ObjState} {i : ℕ} {comp : List Char} {s' : ObjState}
    (h : addVertexComp s i comp = .ok s') : GeomsLE (geomList s) (geomList s') := by
  unfold addVertexComp at h
  by_cases h0 : comp = []
  · rw [if_pos h0] at h; cases h; exact geomsLE_rfl _
  · rw [if_neg h0] at h
    by_cases h4 : 4 ≤ i
    · rw [if_pos h4] at h; cases h
    · rw [if_neg h4] at h
      cases hp : parseIntJS comp with
      | none => simp only [hp] at h; simp at h
      | some oi =>
        simp only [hp] at h
        cases hl : listGetInt (poolAt s i) (resolveIndex oi (poolAt s i).length) with
        | none => simp only [hl] at h; simp at h
        | some vals =>
          simp only [hl] at h
          cases hc : s.current with
          | none => simp only [hc] at h; simp at h
          | some g =>
            simp only [hc] at h
            by_cases hcol : i = 0 ∧ 1 < s.objColors.length
            · rw [if_pos hcol] at h
              cases hcl : listGetInt s.objColors (resolveIndex oi (poolAt s i).length) with
              | none => simp only [hcl] at h; simp at h
              | some cvals =>
                simp only [hcl] at h
                cases h
                simp only [geomList, hc, Option.toList_some]
                exact geomsLE_concat
                  (geomLE_trans (pushField_geomLE g i _) (pushField_geomLE _ 3 _))
            · rw [if_neg hcol] at h
              cases h
              simp only [geomList, hc, Option.toList_some]
              exact geomsLE_concat (pushField_geomLE g i _)

theorem foldlM_geomsLE {α : Type} {f : ObjState → α → Except JsErr ObjState}
    (hf : ∀ st a st', f st a = .ok st' → GeomsLE (geomList st) (geomList st')) :
    ∀ (l : List α) (s s' : ObjState), l.foldlM f s = .ok s' →
      GeomsLE (geomList s) (geomList s') := by
  intro l
  induction l with
  | nil =>
    intro s s' h
    rw [List.foldlM_nil] at h
    cases h
    exact geomsLE_rfl _
  | cons a t ih =>
    intro s s' h
    rw [List.foldlM_cons] at h
    obtain ⟨s1, hs1, hrest⟩ := except_bind_ok h
    exact geomsLE_trans (hf s a s1 hs1) (ih s1 s' hrest)

theorem addVertex_geomsLE {s : ObjState} {vert : List Char} {s' : ObjState}
    (h : addVertex s vert = .ok s') : GeomsLE (geomList s) (geomList s') :=
  foldlM_geomsLE (fun _ _ _ hc => addVertexComp_geomsLE hc) _ s s' h

theorem fHandler_geomsLE {s : ObjState} {parts : List (List Char)} {s' : ObjState}
    (h : fHandler s parts = .ok s') : GeomsLE (geomList s) (geomList s') := by
  unfold fHandler at h
  refine geomsLE_trans (geomsLE_setGeometry s) ?_
  refine foldlM_geomsLE ?_ _ _ _ h
  intro st tri st' hb
  obtain ⟨s1, h1, hb1⟩ := except_bind_ok hb
  obtain ⟨s2, h2, hb2⟩ := except_bind_ok hb1
  exact geomsLE_trans (addVertex_geomsLE h1)
    (geomsLE_trans (addVertex_geomsLE h2) (addVertex_geomsLE hb2))

theorem vHandler_geomList (s : ObjState) (parts : List (List Char)) :
    geomList (vHandler s parts) = geomList s := by
  unfold vHandler
  split <;> rfl

theorem objDispatch_geomsLE {s : ObjState} {n : ℕ} {kw ua : String}
    {parts : List (List Char)} {s' : ObjState}
    (h : objDispatch s n kw ua parts = .ok s') : GeomsLE (geomList s) (geomList s') := by
  unfold objDispatch at h
  by_cases h1 : kw = "v"
  · rw [if_pos h1] at h; cases h; rw [vHandler_geomList]; exact geomsLE_rfl _
  · rw [if_neg h1] at h
    by_cases h2 : kw = "vn"
    · rw [if_pos h2] at h; cases h; exact geomsLE_rfl _
    · rw [if_neg h2] at h
      by_cases h3 : kw = "vt"
      · rw [if_pos h3] at h; cases h; exact geomsLE_rfl _
      · rw [if_neg h3] at h
        by_cases h4 : kw = "f"
        · rw [if_pos h4] at h; exact fHandler_geomsLE h
        · rw [if_neg h4] at h
          by_cases h5 : kw = "s"
          · rw [if_pos h5] at h; cases h; exact geomsLE_rfl _
          · rw [if_neg h5] at h
            by_cases h6 : kw = "mtllib"
            · rw [if_pos h6] at h; cases h; exact geomsLE_rfl _
            · rw [if_neg h6] at h
              by_cases h7 : kw = "usemtl"
              · rw [if_pos h7] at h; cases h
                rw [geomList_newGeometry]; exact geomsLE_rfl _
              · rw [if_neg h7] at h
                by_cases h8 : kw = "g"
                · rw [if_pos h8] at h; cases h
                  rw [geomList_newGeometry]; exact geomsLE_rfl _
                · rw [if_neg h8] at h
                  by_cases h9 : kw = "o"
                  · rw [if_pos h9] at h; cases h
                    rw [geomList_newGeometry]; exact geomsLE_rfl _
                  · rw [if_neg h9] at h
                    by_cases h10 : kw ∈ protoSilentKeywords
                    · rw [if_pos h10] at h; cases h; exact geomsLE_rfl _
                    · rw [if_neg h10] at h
                      by_cases h11 : kw ∈ protoThrowKeywords
                      · rw [if_pos h11] at h; exact Except.noConfusion h
                      · rw [if_neg h11] at h; cases h; exact geomsLE_rfl _

theorem objStep_geomsLE {s : ObjState} {rawLine : String} {n : ℕ} {s' : ObjState}
    (h : objStep s rawLine n = .ok s') : GeomsLE (geomList s) (geomList s') := by
  simp only [objStep] at h
  split at h
  · cases h; exact geomsLE_rfl _
  · split at h
    · cases h; exact geomsLE_rfl _
    · unfold objHandle execKeywordRE at h
      exact objDispatch_geomsLE h

theorem runLinesFrom_geomsLE :
    ∀ (lines : List String) (s : ObjState) (n : ℕ) (s' : ObjState),
      runLinesFrom s n lines = .ok s' → GeomsLE (geomList s) (geomList s') := by
  intro lines
  induction lines with
  | nil =>
    intro s n s' h
    cases h
    exact geomsLE_rfl _
  | cons line rest ih =>
    intro s n s' h
    unfold runLinesFrom at h
    cases hs : objStep s line n with
    | error e => rw [hs] at h; simp at h
    | ok s1 =>
      rw [hs] at h
      exact geomsLE_trans (objStep_geomsLE hs) (ih s1 (n + 1) s' h)

/-! ## Supporting lemmas -/

theorem objStep_eq (s : ObjState) (l : String) (n : ℕ) (h1 : jsTrim l.data ≠ [])
    (h2 : (jsTrim l.data).headD ' ' ≠ '#') :
    objStep s l n = objDispatch s n (lineKeyword l)
      ⟨((jsTrim l.data).dropWhile isWordChar).dropWhile (fun c => c = ' ')⟩
      ((fieldsByWs (jsTrim l.data)).drop 1) := by
  unfold objStep
  rw [if_neg h1, if_neg h2]
  rfl

theorem mtlStep_eq (s : MtlState) (l : String) (n : ℕ) (h1 : jsTrim l.data ≠ [])
    (h2 : (jsTrim l.data).headD ' ' ≠ '#') :
    mtlStep s l n = mtlDispatch s n (lineKeyword l)
      ⟨((jsTrim l.data).dropWhile isWordChar).dropWhile (fun c => c = ' ')⟩
      ((fieldsByWs (jsTrim l.data)).drop 1) := by
  unfold mtlStep
  rw [if_neg h1, if_neg h2]
  rfl

/-- A line whose extracted keyword is non-empty is itself non-empty
after trimming and is not a comment. -/
theorem lineKeyword_ne_empty {l : String} (h : lineKeyword l ≠ "") :
    jsTrim l.data ≠ [] ∧ (jsTrim l.data).headD ' ' ≠ '#' := by
  constructor
  · intro h0
    apply h
    unfold lineKeyword
    rw [h0]
    rfl
  · cases htr : jsTrim l.data with
    | nil => exact absurd (by unfold lineKeyword; rw [htr]; rfl) h
    | cons c cs =>
      intro hch
      simp only [List.headD] at hch
      apply h
      unfold lineKeyword
      rw [htr, hch]
      rfl

theorem objDispatch_ok {s : ObjState} {n : ℕ} {kw ua : String} {parts : List (List Char)}
    (h : kw ≠ "f") (ht : kw ∉ protoThrowKeywords) :
    ∃ s', objDispatch s n kw ua parts = .ok s' := by
  unfold objDispatch
  by_cases h1 : kw = "v"
  · rw [if_pos h1]; exact ⟨_, rfl⟩
  · rw [if_neg h1]
    by_cases h2 : kw = "vn"
    · rw [if_pos h2]; exact ⟨_, rfl⟩
    · rw [if_neg h2]
      by_cases h3 : kw = "vt"
      · rw [if_pos h3]; exact ⟨_, rfl⟩
      · rw [if_neg h3, if_neg h]
        by_cases h5 : kw = "s"
        · rw [if_pos h5]; exact ⟨_, rfl⟩
        · rw [if_neg h5]
          by_cases h6 : kw = "mtllib"
          · rw [if_pos h6]; exact ⟨_, rfl⟩
          · rw [if_neg h6]
            by_cases h7 : kw = "usemtl"
            · rw [if_pos h7]; exact ⟨_, rfl⟩
            · rw [if_neg h7]
              by_cases h8 : kw = "g"
              · rw [if_pos h8]; exact ⟨_, rfl⟩
              · rw [if_neg h8]
                by_cases h9 : kw = "o"
                · rw [if_pos h9]; exact ⟨_, rfl⟩
                · rw [if_neg h9]
                  by_cases h10 : kw ∈ protoSilentKeywords
                  · rw [if_pos h10]; exact ⟨_, rfl⟩
                  · rw [if_neg h10, if_neg ht]; exact ⟨_, rfl⟩

theorem objStep_ok {s : ObjState} {l : String} {n : ℕ} (h : lineKeyword l ≠ "f")
    (ht : lineKeyword l ∉ protoThrowKeywords) : ∃ s', objStep s l n = .ok s' := by
  by_cases h1 : jsTrim l.data = []
  · exact ⟨s, by unfold objStep; rw [if_pos h1]⟩
  · by_cases h2 : (jsTrim l.data).headD ' ' = '#'
    · exact ⟨s, by unfold objStep; rw [if_neg h1, if_pos h2]⟩
    · rw [objStep_eq s l n h1 h2]
      exact objDispatch_ok h ht

/-- The MTL keywords whose handlers write a field of the open
material. -/
def mtlFieldKeywords : List String :=
  ["Ns", "Ka", "Kd", "Ks", "Ke", "map_Kd", "map_Ns", "map_Bump", "Ni", "d", "illum"]

theorem mtlDispatch_ok {s : MtlState} {n : ℕ} {kw ua : String} {parts : List (List Char)}
    (h : kw ∉ mtlFieldKeywords) (ht : kw ∉ protoThrowKeywords) :
    ∃ s', mtlDispatch s n kw ua parts = .ok s' := by
  have hmem : kw ≠ "Ns" ∧ kw ≠ "Ka" ∧ kw ≠ "Kd" ∧ kw ≠ "Ks" ∧ kw ≠ "Ke" ∧
      kw ≠ "map_Kd" ∧ kw ≠ "map_Ns" ∧ kw ≠ "map_Bump" ∧ kw ≠ "Ni" ∧ kw ≠ "d" ∧
      kw ≠ "illum" := by
    simp only [mtlFieldKeywords, List.mem_cons, List.mem_singleton, not_or] at h
    simpa using h
  obtain ⟨e1, e2, e3, e4, e5, e6, e7, e8, e9, e10, e11⟩ := hmem
  unfold mtlDispatch
  by_cases h0 : kw = "newmtl"
  · rw [if_pos h0]; exact ⟨_, rfl⟩
  · rw [if_neg h0, if_neg e1, if_neg e2, if_neg e3, if_neg e4, if_neg e5, if_neg e6,
      if_neg e7, if_neg e8, if_neg e9, if_neg e10, if_neg e11]
    by_cases h12 : kw ∈ protoSilentKeywords
    · rw [if_pos h12]; exact ⟨_, rfl⟩
    · rw [if_neg h12, if_neg ht]; exact ⟨_, rfl⟩

theorem mtlStep_ok {s : MtlState} {l : String} {n : ℕ} (h : lineKeyword l ∉ mtlFieldKeywords)
    (ht : lineKeyword l ∉ protoThrowKeywords) : ∃ s', mtlStep s l n = .ok s' := by
  by_cases h1 : jsTrim l.data = []
  · exact ⟨s, by unfold mtlStep; rw [if_pos h1]⟩
  · by_cases h2 : (jsTrim l.data).headD ' ' = '#'
    · exact ⟨s, by unfold mtlStep; rw [if_neg h1, if_pos h2]⟩
    · rw [mtlStep_eq s l n h1 h2]
      exact mtlDispatch_ok h ht

/-- The numeric MTL field keywords named by the spec. -/
def mtlNumericKeywords : List String :=
  ["Ns", "Ka", "Kd", "Ks", "Ke", "Ni", "d"]

theorem mtlDispatch_numeric_noMaterial {s : MtlState} {n : ℕ} {kw ua : String}
    {parts : List (List Char)} (hcur : s.current = none)
    (hkw : kw ∈ mtlNumericKeywords) : mtlDispatch s n kw ua parts = .error .typeError := by
  have hset : ∀ f, setMatField s f = .error .typeError := by
    intro f
    unfold setMatField
    rw [hcur]
  simp only [mtlNumericKeywords, List.mem_cons, List.not_mem_nil, or_false] at hkw
  rcases hkw with h | h | h | h | h | h | h <;> subst h <;>
    simp [mtlDispatch, hset]

theorem objDispatch_unknown {s : ObjState} {n : ℕ} {kw ua : String} {parts : List (List Char)}
    (h : kw ∉ objFoundKeywords) :
    objDispatch s n kw ua parts = .ok { s with log := s.log ++ [(kw, n + 1)] } := by
  have hs : kw ∉ protoSilentKeywords := fun hm =>
    h (by simp only [objFoundKeywords, List.mem_append]; exact Or.inl (Or.inr hm))
  have ht : kw ∉ protoThrowKeywords := fun hm =>
    h (by simp only [objFoundKeywords, List.mem_append]; exact Or.inr hm)
  have hown : kw ∉ (["v", "vn", "vt", "f", "s", "mtllib", "usemtl", "g", "o"] : List String) :=
    fun hm => h (by simp only [objFoundKeywords, List.mem_append]; exact Or.inl (Or.inl hm))
  simp only [List.mem_cons, List.mem_singleton, not_or] at hown
  obtain ⟨e1, e2, e3, e4, e5, e6, e7, e8, e9, -⟩ := hown
  unfold objDispatch
  rw [if_neg e1, if_neg e2, if_neg e3, if_neg e4, if_neg e5, if_neg e6, if_neg e7,
    if_neg e8, if_neg e9, if_neg hs, if_neg ht]

theorem mtlDispatch_unknown {s : MtlState} {n : ℕ} {kw ua : String} {parts : List (List Char)}
    (h : kw ∉ mtlFoundKeywords) :
    mtlDispatch s n kw ua parts = .ok { s with log := s.log ++ [(kw, n + 1)] } := by
  have hs : kw ∉ protoSilentKeywords := fun hm =>
    h (by simp only [mtlFoundKeywords, List.mem_append]; exact Or.inl (Or.inr hm))
  have ht : kw ∉ protoThrowKeywords := fun hm =>
    h (by simp only [mtlFoundKeywords, List.mem_append]; exact Or.inr hm)
  have hown : kw ∉ (["newmtl", "Ns", "Ka", "Kd", "Ks", "Ke", "map_Kd", "map_Ns", "map_Bump",
      "Ni", "d", "illum"] : List String) := fun hm =>
    h (by simp only [mtlFoundKeywords, List.mem_append]; exact Or.inl (Or.inl hm))
  simp only [List.mem_cons, List.mem_singleton, not_or] at hown
  obtain ⟨e0, e1, e2, e3, e4, e5, e6, e7, e8, e9, e10, e11, -⟩ := hown
  unfold mtlDispatch
  rw [if_neg e0, if_neg e1, if_neg e2, if_neg e3, if_neg e4, if_neg e5, if_neg e6,
    if_neg e7, if_neg e8, if_neg e9, if_neg e10, if_neg e11, if_neg hs, if_neg ht]

theorem foldlM_map_except {α β σ : Type} (g : α → β) (f : σ → β → Except JsErr σ) :
    ∀ (l : List α) (s : σ), (l.map g).foldlM f s = l.foldlM (fun st a => f st (g a)) s := by
  intro l
  induction l with
  | nil => intro s; rfl
  | cons a t ih =>
    intro s
    rw [List.map_cons, List.foldlM_cons, List.foldlM_cons]
    cases hf : f s (g a) with
    | error e => rfl
    | ok s1 => exact ih s1

/-- The negative-index rule of `addVertex`, in closed form: `-(n+1)`
reads the entry `n+1` before the current end of the pool when that
exists, and is out of range otherwise. -/
theorem lookupRef_neg_eq (pool : List (List JsNum)) (n : ℕ) :
    lookupRef pool (-((n : ℤ) + 1)) =
      if n + 1 ≤ pool.length then pool[pool.length - (n + 1)]? else none := by
  unfold lookupRef resolveIndex listGetInt
  rw [if_neg (by omega : ¬(0 : ℤ) ≤ -((n : ℤ) + 1))]
  by_cases hn : n + 1 ≤ pool.length
  · rw [if_pos hn, if_neg (by omega : ¬-((n : ℤ) + 1) + (pool.length : ℤ) < 0)]
    congr 1
    omega
  · rw [if_neg hn, if_pos (by omega : -((n : ℤ) + 1) + (pool.length : ℤ) < 0)]

theorem foldl_append_eq_flat {α β : Type} (h : α → List β) :
    ∀ (l : List α) (init : List β),
      l.foldl (fun acc x => acc ++ h x) init = init ++ l.flatMap h := by
  intro l
  induction l with
  | nil => intro init; simp
  | cons a t ih => intro init; simp [ih]

theorem generateTangents_eq_flat (nrm : ℚ × ℚ × ℚ → ℚ × ℚ × ℚ) (pos tc : List ℚ) :
    generateTangents nrm pos tc =
      (List.range (numFacesOf pos)).flatMap (faceTangentList nrm pos tc) := by
  unfold generateTangents
  rw [foldl_append_eq_flat]
  rfl

theorem flatMap_const_length {α : Type} {f : α → List ℚ} {k : ℕ}
    (hf : ∀ a, (f a).length = k) :
    ∀ l : List α, (l.flatMap f).length = k * l.length := by
  intro l
  induction l with
  | nil => simp
  | cons a t ih =>
    simp only [List.flatMap_cons, List.length_append, hf, ih, List.length_cons, Nat.mul_succ]
    omega

theorem generateTangents_length (nrm : ℚ × ℚ × ℚ → ℚ × ℚ × ℚ) (pos tc : List ℚ) :
    (generateTangents nrm pos tc).length = 9 * numFacesOf pos := by
  have h := @flatMap_const_length _ (faceTangentList nrm pos tc) 9 (fun _ => rfl)
    (List.range (numFacesOf pos))
  rw [generateTangents_eq_flat, h, List.length_range]

theorem lookupTex_append_some {c : List (String × ℕ)} {fn : String} {h : ℕ}
    (hl : lookupTex c fn = some h) (more : List (String × ℕ)) :
    lookupTex (c ++ more) fn = some h := by
  induction c with
  | nil => simp [lookupTex] at hl
  | cons p t ih =>
    obtain ⟨k, v⟩ := p
    by_cases hk : k = fn
    · simp only [lookupTex, if_pos hk] at hl
      simp only [List.cons_append, lookupTex, if_pos hk]
      exact hl
    · simp only [lookupTex, if_neg hk] at hl
      simp only [List.cons_append, lookupTex, if_neg hk]
      exact ih hl

theorem lookupTex_append_new {c : List (String × ℕ)} {fn : String}
    (hl : lookupTex c fn = none) (h : ℕ) :
    lookupTex (c ++ [(fn, h)]) fn = some h := by
  induction c with
  | nil => simp [lookupTex]
  | cons p t ih =>
    obtain ⟨k, v⟩ := p
    by_cases hk : k = fn
    · simp only [lookupTex, if_pos hk] at hl
      exact Option.noConfusion hl
    · simp only [lookupTex, if_neg hk] at hl
      simp only [List.cons_append, lookupTex, if_neg hk]
      exact ih hl

theorem texEntryStep_inv {acc : TexState × List (String × ℕ)} {e : String × String}
    (h : TexInv acc) : TexInv (texEntryStep acc e) := by
  obtain ⟨hnd, hcc, has⟩ := h
  unfold texEntryStep requestTexture
  cases hl : lookupTex acc.1.cache e.2 with
  | some hh =>
    refine ⟨hnd, hcc, ?_⟩
    intro p hp
    rcases List.mem_append.mp hp with hp | hp
    · exact has p hp
    · simp only [List.mem_singleton] at hp
      subst hp
      exact hl
  | none =>
    have hmem : e.2 ∉ acc.1.createCalls := by
      intro hm
      have := hcc e.2 hm
      rw [hl] at this
      simp at this
    refine ⟨?_, ?_, ?_⟩
    · rw [List.nodup_append]
      exact ⟨hnd, List.nodup_singleton _, by simpa using hmem⟩
    · intro fn hfn
      rcases List.mem_append.mp hfn with hfn | hfn
      · obtain ⟨v, hv⟩ := Option.isSome_iff_exists.mp (hcc fn hfn)
        rw [lookupTex_append_some hv]
        rfl
      · simp only [List.mem_singleton] at hfn
        subst hfn
        rw [lookupTex_append_new hl]
        rfl
    · intro p hp
      rcases List.mem_append.mp hp with hp | hp
      · exact lookupTex_append_some (has p hp) _
      · simp only [List.mem_singleton] at hp
        subst hp
        exact lookupTex_append_new hl _

theorem foldl_inv {α σ : Type} (P : σ → Prop) (f : σ → α → σ)
    (hf : ∀ s a, P s → P (f s a)) :
    ∀ (l : List α) (s : σ), P s → P (l.foldl f s) := by
  intro l
  induction l with
  | nil => intro s hs; exact hs
  | cons a t ih => intro s hs; exact ih (f s a) (hf s a hs)

theorem loadAllTextures_inv (mats : List (List (String × String))) :
    TexInv (loadAllTextures mats) := by
  unfold loadAllTextures
  refine foldl_inv TexInv _ ?_ mats (texInit, []) ?_
  · intro acc entries hacc
    exact foldl_inv TexInv texEntryStep (fun a e ha => texEntryStep_inv ha) entries acc hacc
  · exact ⟨List.nodup_nil, by simp [texInit], by simp⟩

/-! ## Claims -/

/-- C1: a negative face index `-n` resolves to the entry `n` before the
current end of its attribute pool at the moment the face line is parsed
(`lookupRef` is exactly the read `addVertex` performs, with the pool
contents of that moment); `-1` yields the most recently appended entry;
and the resolution is unaffected by entries appended afterwards: any
further parsed lines only extend the already-emitted geometry data
(`GeomsLE`), never modify it — illustrated by the closed parse where a
`v` line after the face does not change the face's resolved data. -/
theorem claim_c1 :
    (∀ (pool : List (List JsNum)) (n : ℕ),
      lookupRef pool (-((n : ℤ) + 1)) =
        if n + 1 ≤ pool.length then pool[pool.length - (n + 1)]? else none)
    ∧ (∀ pool : List (List JsNum), lookupRef pool (-1) = pool.getLast?)
    ∧ (∀ (s : ObjState) (lines : List String),
        match runLines s lines with
        | .ok s' => GeomsLE (geomList s) (geomList s')
        | .error _ => True)
    ∧ ParseOBJ "v 1 1 1\nv 2 2 2\nf -1 -1 -1\nv 3 3 3" =
        .ok ⟨[⟨"default", ["default"], "default",
          some [.num 2, .num 2, .num 2, .num 2, .num 2, .num 2, .num 2, .num 2, .num 2],
          none, none, none⟩], []⟩ := by
  refine ⟨lookupRef_neg_eq, ?_, ?_, ?_⟩
  · intro pool
    rcases pool with - | ⟨a, t⟩
    · rfl
    · have h := lookupRef_neg_eq (a :: t) 0
      rw [List.getLast?_eq_getElem?]
      simpa using h
  · intro s lines
    cases h : runLines s lines with
    | ok s' => exact runLinesFrom_geomsLE lines s 0 s' h
    | error e => trivial
  · with_unfolding_all decide

/-- C2: the face handler is exactly the fixed-pivot fan fold: it opens
a geometry and processes the corner triples `(parts[0], parts[k+1],
parts[k+2])` for `k < N-2` in order (`fanRefs`), so an N-gon gives
`N-2` triangles; a quad gives the triples (1,2,3) and (1,3,4); and the
corner attributes are appended (duplicated) into the non-indexed
position array, as the closed quad parse shows. -/
theorem claim_c2 :
    (∀ (s : ObjState) (parts : List (List Char)), fHandler s parts = fanFold s parts)
    ∧ (∀ parts : List (List Char), (fanRefs parts).length = parts.length - 2)
    ∧ (∀ (parts : List (List Char)) (k : ℕ),
        (fanRefs parts)[k]? = if k < parts.length - 2
          then some (parts.getD 0 [], parts.getD (k + 1) [], parts.getD (k + 2) [])
          else none)
    ∧ fanRefs [['1'], ['2'], ['3'], ['4']] =
        [(['1'], ['2'], ['3']), (['1'], ['3'], ['4'])]
    ∧ ParseOBJ "v 0 0 0\nv 1 0 0\nv 1 1 0\nv 0 1 0\nf 1 2 3 4" =
        .ok ⟨[⟨"default", ["default"], "default",
          some [.num 0, .num 0, .num 0, .num 1, .num 0, .num 0, .num 1, .num 1, .num 0,
                .num 0, .num 0, .num 0, .num 1, .num 1, .num 0, .num 0, .num 1, .num 0],
          none, none, none⟩], []⟩ := by
  refine ⟨?_, ?_, ?_, by decide, by with_unfolding_all decide⟩
  · intro s parts
    unfold fHandler fanFold fanRefs
    rw [foldlM_map_except]
    rfl
  · intro parts
    unfold fanRefs
    rw [List.length_map, List.length_range]
  · intro parts k
    unfold fanRefs
    rw [List.getElem?_map]
    by_cases hk : k < parts.length - 2
    · rw [List.getElem?_range hk, if_pos hk]
      rfl
    · rw [List.getElem?_eq_none (by simpa using Nat.le_of_not_lt hk), if_neg hk]
      rfl

/-- C3 counterexample: a face that references a vertex whose color
entry was never declared (the second vertex has no color, but colors
are in use) makes `ParseOBJ` throw a TypeError; an `illum` line before
any `newmtl` makes `ParseMTL` throw; and a line whose keyword names a
throwing `Object.prototype` member found through the keyword table's
prototype chain (`hasOwnProperty`, `valueOf`) throws past either
parser. Parser-level issues can therefore escape the parse call,
contrary to the claim. -/
theorem claim_c3_counterexample :
    ParseOBJ "v 1 2 3 0.5 0.5 0.5\nv 4 5 6\nf 1 2 2" = .error .typeError
    ∧ ParseMTL "illum 2" = .error .typeError
    ∧ ParseOBJ "hasOwnProperty x" = .error .typeError
    ∧ ParseMTL "valueOf 1" = .error .typeError := by
  refine ⟨?_, ?_, ?_, ?_⟩ <;> with_unfolding_all decide

/-- C3 amended: parser-level issues of the line and keyword kind never
throw — every line whose keyword is neither `f` nor a throwing
inherited `Object.prototype` member name leaves `ParseOBJ`'s loop
normally, and every line whose keyword is neither a material-field
keyword nor such a member name leaves `ParseMTL`'s loop normally — but
`f` lines with unresolvable pool references, material-field lines with
no open material, and lines whose keyword reaches a throwing inherited
member all throw a TypeError that escapes the parse call (see the
counterexample). -/
theorem claim_c3_amended :
    (∀ (s : ObjState) (l : String) (n : ℕ), lineKeyword l ≠ "f" →
      lineKeyword l ∉ protoThrowKeywords → ∃ s', objStep s l n = .ok s')
    ∧ (∀ (s : MtlState) (l : String) (n : ℕ), lineKeyword l ∉ mtlFieldKeywords →
      lineKeyword l ∉ protoThrowKeywords → ∃ s', mtlStep s l n = .ok s') :=
  ⟨fun _ _ _ h ht => objStep_ok h ht, fun _ _ _ h ht => mtlStep_ok h ht⟩

theorem claim_c3_witness :
    (∃ s', objStep objInit "vt 0 1" 0 = .ok s')
    ∧ (∃ s', mtlStep mtlInit "newmtl a" 0 = .ok s') :=
  ⟨claim_c3_amended.1 objInit "vt 0 1" 0 (by decide) (by decide),
   claim_c3_amended.2 mtlInit "newmtl a" 0 (by decide) (by decide)⟩

/-- C4 counterexample: a numeric keyword line before any `newmtl` is
not ignored — `ParseMTL` throws a TypeError (the handler assigns a
property of the undefined `material`). -/
theorem claim_c4_counterexample : ParseMTL "Ns 10" = .error .typeError := by
  with_unfolding_all decide

/-- C4 amended: every numeric keyword line (`Ns`, `Ka`, `Kd`, `Ks`,
`Ke`, `Ni`, `d`) processed while no material is open makes the material
parse throw a TypeError — the parse aborts instead of ignoring the
line, and no materials mapping is returned. -/
theorem claim_c4_amended :
    ∀ (s : MtlState) (l : String) (n : ℕ), s.current = none →
      lineKeyword l ∈ mtlNumericKeywords →
      mtlStep s l n = .error .typeError := by
  intro s l n hcur hkw
  have hne : lineKeyword l ≠ "" := by
    intro h0
    rw [h0] at hkw
    exact absurd hkw (by decide)
  obtain ⟨h1, h2⟩ := lineKeyword_ne_empty hne
  rw [mtlStep_eq s l n h1 h2]
  exact mtlDispatch_numeric_noMaterial hcur hkw

theorem claim_c4_witness : mtlStep mtlInit "Kd 1 0 0" 0 = .error .typeError :=
  claim_c4_amended mtlInit "Kd 1 0 0" 0 rfl (by decide)

/-- C5: context switches (`usemtl`, `g`, `o`) any number of times with
no intervening face line add no Geometry record: a run of lines whose
keywords are all context switches parses successfully and leaves the
geometry list exactly as it was. -/
theorem claim_c5 :
    ∀ (s : ObjState) (lines : List String),
      (∀ l ∈ lines, lineKeyword l ∈ (["usemtl", "g", "o"] : List String)) →
      ∃ s', runLines s lines = .ok s' ∧ geomList s' = geomList s := by
  have hstep : ∀ (s : ObjState) (l : String) (n : ℕ),
      lineKeyword l ∈ (["usemtl", "g", "o"] : List String) →
      ∃ s', objStep s l n = .ok s' ∧ geomList s' = geomList s := by
    intro s l n hmem
    have hne : lineKeyword l ≠ "" := by
      intro h0
      rw [h0] at hmem
      exact absurd hmem (by decide)
    obtain ⟨h1, h2⟩ := lineKeyword_ne_empty hne
    rw [objStep_eq s l n h1 h2]
    simp only [List.mem_cons, List.not_mem_nil, or_false] at hmem
    unfold objDispatch
    rcases hmem with hk | hk | hk <;> rw [hk] <;>
      exact ⟨_, rfl, by rw [geomList_newGeometry]; rfl⟩
  have hrun : ∀ (lines : List String) (n : ℕ) (s : ObjState),
      (∀ l ∈ lines, lineKeyword l ∈ (["usemtl", "g", "o"] : List String)) →
      ∃ s', runLinesFrom s n lines = .ok s' ∧ geomList s' = geomList s := by
    intro lines
    induction lines with
    | nil => exact fun n s _ => ⟨s, rfl, rfl⟩
    | cons l rest ih =>
      intro n s hmem
      obtain ⟨s1, hs1, hg1⟩ := hstep s l n (hmem l (by simp))
      obtain ⟨s', hs', hg'⟩ := ih (n + 1) s1 (fun x hx => hmem x (by simp [hx]))
      refine ⟨s', ?_, hg'.trans hg1⟩
      unfold runLinesFrom
      rw [hs1]
      exact hs'
  exact fun s lines h => hrun lines 0 s h

theorem claim_c5_witness :
    ∃ s', runLines objInit ["usemtl a", "usemtl b"] = .ok s'
      ∧ geomList s' = geomList objInit :=
  claim_c5 objInit ["usemtl a", "usemtl b"] (by decide)

/-- C6: for every triangle of the tangent synthesizer's input streams,
the nine output floats are the face tangent repeated for all three
vertices; that tangent is exactly `(1,0,0)` when the UV-edge
determinant vanishes (the condition under which `f = 1/det` is
non-finite in the JS doubles) and the normalized scaled edge
combination otherwise; the output is a per-face concatenation in input
order, and its length equals the position length on whole-triangle
streams (parallel arrays); texcoords `(0,0),(0,0),(0,0)` yield tangent
`(1,0,0)` for all three vertices. -/
theorem claim_c6 :
    (∀ (nrm : ℚ × ℚ × ℚ → ℚ × ℚ × ℚ) (pos tc : List ℚ),
      generateTangents nrm pos tc =
        (List.range (numFacesOf pos)).flatMap (faceTangentList nrm pos tc))
    ∧ (∀ (nrm : ℚ × ℚ × ℚ → ℚ × ℚ × ℚ) (pos tc : List ℚ) (i : ℕ),
        faceTangentList nrm pos tc i =
          [(faceTangent nrm pos tc i).1, (faceTangent nrm pos tc i).2.1,
           (faceTangent nrm pos tc i).2.2]
          ++ [(faceTangent nrm pos tc i).1, (faceTangent nrm pos tc i).2.1,
              (faceTangent nrm pos tc i).2.2]
          ++ [(faceTangent nrm pos tc i).1, (faceTangent nrm pos tc i).2.1,
              (faceTangent nrm pos tc i).2.2])
    ∧ (∀ (nrm : ℚ × ℚ × ℚ → ℚ × ℚ × ℚ) (pos tc : List ℚ),
        9 ∣ pos.length → (generateTangents nrm pos tc).length = pos.length)
    ∧ (∀ (nrm : ℚ × ℚ × ℚ → ℚ × ℚ × ℚ) (pos tc : List ℚ) (i : ℕ),
        faceDet tc i = 0 → faceTangent nrm pos tc i = (1, 0, 0))
    ∧ (∀ (nrm : ℚ × ℚ × ℚ → ℚ × ℚ × ℚ) (pos tc : List ℚ) (i : ℕ),
        faceDet tc i ≠ 0 → faceTangent nrm pos tc i = nrm (faceRaw pos tc i))
    ∧ (∀ (nrm : ℚ × ℚ × ℚ → ℚ × ℚ × ℚ) (pos : List ℚ), pos.length = 9 →
        generateTangents nrm pos (List.replicate 6 0) = [1, 0, 0, 1, 0, 0, 1, 0, 0]) := by
  refine ⟨generateTangents_eq_flat, fun nrm pos tc i => rfl, ?_, ?_, ?_, ?_⟩
  · intro nrm pos tc h
    rw [generateTangents_length]
    unfold numFacesOf
    omega
  · intro nrm pos tc i h
    unfold faceTangent
    rw [if_pos h]
  · intro nrm pos tc i h
    unfold faceTangent
    rw [if_neg h]
  · intro nrm pos h
    have hn : numFacesOf pos = 1 := by unfold numFacesOf; omega
    have hd : faceDet (List.replicate 6 (0 : ℚ)) 0 = 0 := by with_unfolding_all decide
    rw [generateTangents_eq_flat, hn, show List.range 1 = [0] from rfl]
    simp only [List.flatMap_cons, List.flatMap_nil, List.append_nil]
    unfold faceTangentList faceTangent
    rw [if_pos hd]

theorem claim_c6_witness :
    (generateTangents (fun v => v) [0, 0, 0, 1, 0, 0, 0, 1, 0] (List.replicate 6 0)).length
        = ([0, 0, 0, 1, 0, 0, 0, 1, 0] : List ℚ).length
    ∧ faceTangent (fun v => v) [0, 0, 0, 1, 0, 0, 0, 1, 0] (List.replicate 6 0) 0 = (1, 0, 0)
    ∧ faceTangent (fun v => v) [0, 0, 0, 1, 0, 0, 0, 1, 0] [0, 0, 1, 0, 0, 1] 0
        = (fun v => v) (faceRaw [0, 0, 0, 1, 0, 0, 0, 1, 0] [0, 0, 1, 0, 0, 1] 0)
    ∧ generateTangents (fun v => v) [0, 0, 0, 1, 0, 0, 0, 1, 0] (List.replicate 6 0)
        = [1, 0, 0, 1, 0, 0, 1, 0, 0] :=
  ⟨claim_c6.2.2.1 (fun v => v) _ _ (by decide),
   claim_c6.2.2.2.1 (fun v => v) _ _ 0 (by with_unfolding_all decide),
   claim_c6.2.2.2.2.1 (fun v => v) _ _ 0 (by with_unfolding_all decide),
   claim_c6.2.2.2.2.2 (fun v => v) _ (by decide)⟩

/-- C7: the four-line round-trip text yields exactly one Geometry with
position `[0,0,0, 1,0,0, 0,1,0]`, no texcoord, normal or color arrays
(the fields are absent, not empty), and material "default". -/
theorem claim_c7 :
    ParseOBJ "v 0 0 0\nv 1 0 0\nv 0 1 0\nf 1 2 3" =
      .ok ⟨[⟨"default", ["default"], "default",
        some [.num 0, .num 0, .num 0, .num 1, .num 0, .num 0, .num 0, .num 1, .num 0],
        none, none, none⟩], []⟩ := by
  with_unfolding_all decide

/-- C8: the line regex matches every string, so no non-empty,
non-comment line is ever dropped for failing the keyword-plus-arguments
shape — and the `if (!m)` branch, were it reachable, would drop the
line with no effect at all (conjuncts 2 and 3); a line whose keyword
matches no handler — the `if (!handler)` test, which fires exactly when
the keyword is neither an own key of the table nor an inherited
`Object.prototype` member name (∉ `objFoundKeywords` /
`mtlFoundKeywords`) — produces exactly one logged unhandled-keyword
notice and changes nothing else, in both parsers (conjuncts 4
and 5). -/
theorem claim_c8 :
    (∀ cs : List Char, (execKeywordRE cs).isSome = true)
    ∧ (∀ (s : ObjState) (line : List Char) (n : ℕ), objHandle s line n none = .ok s)
    ∧ (∀ (s : MtlState) (line : List Char) (n : ℕ), mtlHandle s line n none = .ok s)
    ∧ (∀ (s : ObjState) (l : String) (n : ℕ),
        jsTrim l.data ≠ [] → (jsTrim l.data).headD ' ' ≠ '#' →
        lineKeyword l ∉ objFoundKeywords →
        objStep s l n = .ok { s with log := s.log ++ [(lineKeyword l, n + 1)] })
    ∧ (∀ (s : MtlState) (l : String) (n : ℕ),
        jsTrim l.data ≠ [] → (jsTrim l.data).headD ' ' ≠ '#' →
        lineKeyword l ∉ mtlFoundKeywords →
        mtlStep s l n = .ok { s with log := s.log ++ [(lineKeyword l, n + 1)] }) := by
  refine ⟨fun cs => rfl, fun s line n => rfl, fun s line n => rfl, ?_, ?_⟩
  · intro s l n h1 h2 hkw
    rw [objStep_eq s l n h1 h2]
    exact objDispatch_unknown hkw
  · intro s l n h1 h2 hkw
    rw [mtlStep_eq s l n h1 h2]
    exact mtlDispatch_unknown hkw

theorem claim_c8_witness :
    (execKeywordRE "xyz foo".data).isSome = true
    ∧ objHandle objInit "xyz foo".data 0 none = .ok objInit
    ∧ mtlHandle mtlInit "xyz foo".data 0 none = .ok mtlInit
    ∧ objStep objInit "xyz foo" 0
        = .ok { objInit with log := objInit.log ++ [(lineKeyword "xyz foo", 0 + 1)] }
    ∧ mtlStep mtlInit "xyz foo" 0
        = .ok { mtlInit with log := mtlInit.log ++ [(lineKeyword "xyz foo", 0 + 1)] } :=
  ⟨claim_c8.1 "xyz foo".data, claim_c8.2.1 objInit "xyz foo".data 0,
   claim_c8.2.2.1 mtlInit "xyz foo".data 0,
   claim_c8.2.2.2.1 objInit "xyz foo" 0 (by decide) (by decide) (by decide),
   claim_c8.2.2.2.2 mtlInit "xyz foo" 0 (by decide) (by decide) (by decide)⟩

/-- C9: over one texture-loading loop, `createTexture` is called at
most once per distinct filename (the call trace has no duplicates), and
every handle assigned to a material's map field is the cached handle of
its filename — so two references to the same filename always receive
the same handle. -/
theorem claim_c9 :
    ∀ mats : List (List (String × String)),
      ((loadAllTextures mats).1.createCalls).Nodup
      ∧ (∀ p ∈ (loadAllTextures mats).2,
          lookupTex (loadAllTextures mats).1.cache p.1 = some p.2)
      ∧ (∀ p ∈ (loadAllTextures mats).2, ∀ q ∈ (loadAllTextures mats).2,
          p.1 = q.1 → p.2 = q.2) := by
  intro mats
  obtain ⟨h1, h2, h3⟩ := loadAllTextures_inv mats
  refine ⟨h1, h3, ?_⟩
  intro p hp q hq he
  have hp' := h3 p hp
  have hq' := h3 q hq
  rw [he, hq'] at hp'
  injection hp'
  omega

theorem claim_c9_witness :
    ((loadAllTextures [[("diffuseMap", "a.png")], [("normalMap", "a.png")]]).1.createCalls).Nodup
    ∧ lookupTex (loadAllTextures
        [[("diffuseMap", "a.png")], [("normalMap", "a.png")]]).1.cache "a.png" = some 2 :=
  ⟨(claim_c9 [[("diffuseMap", "a.png")], [("normalMap", "a.png")]]).1,
   (claim_c9 [[("diffuseMap", "a.png")], [("normalMap", "a.png")]]).2.1
     ("a.png", 2) (by decide)⟩

/-- C10: an `f` line with fewer than 3 corner references still opens a
Geometry (the triangle loop simply runs zero times, so the handler is
`setGeometry` alone), the opened record joins the geometry list, and in
the returned output the post-pass strips all four (empty) attribute
arrays — parsing the text `f 1 2` alone yields one Geometry whose data
holds no attribute arrays at all. -/
theorem claim_c10 :
    (∀ (s : ObjState) (parts : List (List Char)), parts.length ≤ 2 →
      fHandler s parts = .ok (setGeometry s))
    ∧ (∀ s : ObjState, s.current = none →
      geomList (setGeometry s) = geomList s
        ++ [⟨s.object, s.groups, s.material, [], [], [], []⟩])
    ∧ ParseOBJ "f 1 2" =
        .ok ⟨[⟨"default", ["default"], "default", none, none, none, none⟩], []⟩ := by
  refine ⟨?_, ?_, by with_unfolding_all decide⟩
  · intro s parts h
    unfold fHandler
    rw [show parts.length - 2 = 0 by omega]
    rfl
  · intro s h
    unfold setGeometry
    rw [h]
    simp [geomList, h]

theorem claim_c10_witness :
    fHandler objInit [['1'], ['2']] = .ok (setGeometry objInit)
    ∧ geomList (setGeometry objInit) = geomList objInit
        ++ [⟨"default", ["default"], "default", [], [], [], []⟩] :=
  ⟨claim_c10.1 objInit [['1'], ['2']] (by decide), claim_c10.2.1 objInit rfl⟩

